import Mathlib

/-!
Verification of the TLE-tools core (`tletools/tle.py`, `tletools/utils.py`):
the fixed-column TLE field grammar, the record model, the derived-quantity
engine and the batch partitioner, embedded shallowly.  Python strings are
lists of characters, Python floats are embedded as exact rationals (for the
parsing layer) or reals (for the trigonometric derived quantities), and
Python exceptions are an explicit error type.
-/

namespace TLETools

/-! ### Character and string primitives -/

/-- A Python string, modelled as a list of characters. -/
abbrev Str := List Char

/-- Space test; TLE fields contain no other whitespace. -/
def isSpace (c : Char) : Bool := c == ' '

/-- ASCII digit test, as used by Python numeric parsing. -/
def isDigit (c : Char) : Bool := decide (48 ≤ c.toNat) && decide (c.toNat ≤ 57)

/-- Numeric value of an ASCII digit. -/
def digToNat (c : Char) : ℕ := c.toNat - 48

/-- Value of a digit string read left to right. -/
def natOfDigits (l : Str) : ℕ := l.foldl (fun a c => 10 * a + digToNat c) 0

/-- Python `str.strip()`, restricted to spaces (the only whitespace that
occurs in TLE fields). -/
def stripSpaces (l : Str) : Str :=
  ((l.dropWhile isSpace).reverse.dropWhile isSpace).reverse

/-- Python slice `s[a:b]` for `a ≤ b`: out-of-range bounds are clamped,
never an error. -/
def pySlice (l : Str) (a b : ℕ) : Str := (l.drop a).take (b - a)

/-! ### The batch partitioner (`tletools.utils.partition`) -/

/-- `utils.partition`: the iterable is consumed `n` items at a time; when
fewer than `n` items remain the final short group is yielded only when
`rest` is set.  For `n = 0` the Python generator never terminates (it
yields empty tuples forever); the claims only concern `n ≥ 1`, and this
embedding returns `[]` there. -/
def partition {α : Type} (l : List α) (n : ℕ) (rest : Bool) : List (List α) :=
  if _h1 : n = 0 then []
  else if _h2 : l.length < n then (if rest then [l] else [])
  else l.take n :: partition (l.drop n) n rest
termination_by l.length
decreasing_by simp only [List.length_drop]; omega

/-- Specification-side grouping (from the claim's words): the consecutive
non-overlapping `n`-tuples of `l`, in order, with the trailing short group
discarded. -/
def chunksSpec {α : Type} (l : List α) (n : ℕ) : List (List α) :=
  (List.range (l.length / n)).map fun i => (l.drop (n * i)).take n

/-! ### Python exceptions and numeric decoding -/

/-- The untyped Python exceptions that the parsing layer can raise. -/
inductive PyError : Type
  | valueError
  | indexError
deriving DecidableEq

instance {ε α : Type} [DecidableEq ε] [DecidableEq α] : DecidableEq (Except ε α) := fun x y =>
  match x, y with
  | .ok a, .ok b =>
    if h : a = b then .isTrue (h ▸ rfl) else .isFalse (fun hc => h (by cases hc; rfl))
  | .error a, .error b =>
    if h : a = b then .isTrue (h ▸ rfl) else .isFalse (fun hc => h (by cases hc; rfl))
  | .ok _, .error _ => .isFalse (fun hc => Except.noConfusion hc)
  | .error _, .ok _ => .isFalse (fun hc => Except.noConfusion hc)

/-- A failed Python conversion (`float(...)`, `int(...)`) raises `ValueError`. -/
def ofOption {α : Type} : Option α → Except PyError α
  | some a => .ok a
  | none => .error .valueError

/-- Python indexing `s[i]`: `IndexError` when out of range. -/
def pyIndex (l : Str) (i : ℕ) : Except PyError Char :=
  if h : i < l.length then .ok (l.get ⟨i, h⟩) else .error .indexError

/-- Leading sign of a Python numeric literal. -/
def splitSign : Str → ℤ × Str
  | '+' :: l => (1, l)
  | '-' :: l => (-1, l)
  | l => (1, l)

/-- Unsigned mantissa of a Python float literal: digits with an optional
dot, at least one digit in total (the grammar fragment exercised by TLE
fields; `inf`/`nan`/underscores never occur there). -/
def parseMantissa (l : Str) : Option ℚ :=
  let ip := l.takeWhile isDigit
  match l.dropWhile isDigit with
  | [] => if ip.isEmpty then none else some (natOfDigits ip : ℚ)
  | '.' :: frac =>
    if frac.all isDigit && !(ip.isEmpty && frac.isEmpty) then
      some ((natOfDigits ip : ℚ) + (natOfDigits frac : ℚ) / 10 ^ frac.length)
    else none
  | _ => none

def isExpChar (c : Char) : Bool := c == 'e' || c == 'E'

/-- Python `float(s)` on the literal grammar used by TLE fields: optional
surrounding spaces, optional sign, digits with optional dot, optional
`e`/`E` exponent with optional sign. -/
def pyFloat (l : Str) : Option ℚ :=
  let p := splitSign (stripSpaces l)
  let mant := p.2.takeWhile (fun c => !isExpChar c)
  match p.2.dropWhile (fun c => !isExpChar c) with
  | [] => (parseMantissa mant).map (fun m => (p.1 : ℚ) * m)
  | _ :: ex =>
    let q := splitSign ex
    if !q.2.isEmpty && q.2.all isDigit then
      (parseMantissa mant).map (fun m => (p.1 : ℚ) * m * 10 ^ (q.1 * (natOfDigits q.2 : ℤ)))
    else none

/-- Python `int(s)`: optional surrounding spaces, optional sign, at least
one digit. -/
def pyIntParse (l : Str) : Option ℤ :=
  let p := splitSign (stripSpaces l)
  if !p.2.isEmpty && p.2.all isDigit then some (p.1 * (natOfDigits p.2 : ℤ)) else none

/-- Dynamic argument of the record constructor: the `attrs` converters
accept both strings and already-typed integers. -/
inductive PyScalar : Type
  | str (s : Str)
  | int (z : ℤ)

/-- `_conv_year`: interpret a two-digit year string; an integer argument is
returned unchanged (the `isinstance(s, int)` branch). -/
def conv_year : PyScalar → Except PyError ℤ
  | .int z => .ok z
  | .str s =>
    match pyIntParse s with
    | none => .error .valueError
    | some y => .ok (y + if 57 ≤ y then 1900 else 2000)

/-- The `int` converter of `set_num` / `rev_num`. -/
def intConv : PyScalar → Except PyError ℤ
  | .int z => .ok z
  | .str s =>
    match pyIntParse s with
    | none => .error .valueError
    | some z => .ok z

/-- `_parse_decimal`: parse a float with an implicit leading dot. -/
def parse_decimal (s : Str) : Except PyError ℚ := ofOption (pyFloat ('.' :: s))

/-- `_parse_float`: parse a float with implicit dot and implied-exponent
notation: `float(s[0] + '.' + s[1:6] + 'e' + s[6:8])`. -/
def parse_float (s : Str) : Except PyError ℚ := do
  let c0 ← pyIndex s 0
  ofOption (pyFloat (c0 :: '.' :: (pySlice s 1 6 ++ 'e' :: pySlice s 6 8)))

/-- The two-character zero-padded rendering of a two-digit year. -/
def twoDigits (y : ℕ) : Str := [Char.ofNat (48 + y / 10), Char.ofNat (48 + y % 10)]

/-! ### The record model (`tletools.tle.TLE`) -/

/-- The stored fields of a TLE record, exactly the `attr.ib` declarations of
class `TLE` in declaration order.  The private memo slots `_epoch`, `_a`,
`_nu` set by `__attrs_post_init__` are not `attrs` fields; they live in
`TLEObj` below. -/
@[ext]
structure TLE : Type where
  name : Str
  norad : Str
  classification : Char
  int_desig : Str
  epoch_year : ℤ
  epoch_day : ℚ
  dn_o2 : ℚ
  ddn_o6 : ℚ
  bstar : ℚ
  set_num : ℤ
  inc : ℚ
  raan : ℚ
  ecc : ℚ
  argp : ℚ
  M : ℚ
  n : ℚ
  rev_num : ℤ
deriving DecidableEq

/-- The `attrs`-generated constructor: converters (`str.strip`,
`_conv_year`, `int`) run on the arguments in field-declaration order;
`classification` has no converter and is stored raw. -/
def TLE.make (name norad : Str) (classification : Char) (int_desig : Str)
    (epoch_year : PyScalar) (epoch_day dn_o2 ddn_o6 bstar : ℚ) (set_num : PyScalar)
    (inc raan ecc argp M n : ℚ) (rev_num : PyScalar) : Except PyError TLE := do
  let ey ← conv_year epoch_year
  let sn ← intConv set_num
  let rn ← intConv rev_num
  return { name := stripSpaces name, norad := stripSpaces norad,
           classification := classification, int_desig := stripSpaces int_desig,
           epoch_year := ey, epoch_day := epoch_day, dn_o2 := dn_o2, ddn_o6 := ddn_o6,
           bstar := bstar, set_num := sn, inc := inc, raan := raan, ecc := ecc,
           argp := argp, M := M, n := n, rev_num := rn }

/-- `TLE.from_lines`: fixed-column slicing of the two lines, with the
numeric conversions evaluated in the order the call writes them, then the
constructor's converters. -/
def TLE.from_lines (name line1 line2 : Str) : Except PyError TLE := do
  let norad := pySlice line1 2 7
  let classification ← pyIndex line1 7
  let int_desig := pySlice line1 9 17
  let epoch_year := pySlice line1 18 20
  let epoch_day ← ofOption (pyFloat (pySlice line1 20 32))
  let dn_o2 ← ofOption (pyFloat (pySlice line1 33 43))
  let ddn_o6 ← parse_float (pySlice line1 44 52)
  let bstar ← parse_float (pySlice line1 53 61)
  let set_num := pySlice line1 64 68
  let inc ← ofOption (pyFloat (pySlice line2 8 16))
  let raan ← ofOption (pyFloat (pySlice line2 17 25))
  let ecc ← parse_decimal (pySlice line2 26 33)
  let argp ← ofOption (pyFloat (pySlice line2 34 42))
  let M ← ofOption (pyFloat (pySlice line2 43 51))
  let n ← ofOption (pyFloat (pySlice line2 52 63))
  let rev_num := pySlice line2 63 68
  TLE.make name norad classification int_desig (.str epoch_year) epoch_day dn_o2 ddn_o6
    bstar (.str set_num) inc raan ecc argp M n (.str rev_num)

/-- The stored fields in declaration order, `attr.astuple`. -/
abbrev TLETuple : Type :=
  Str × Str × Char × Str × ℤ × ℚ × ℚ × ℚ × ℚ × ℤ × ℚ × ℚ × ℚ × ℚ × ℚ × ℚ × ℤ

def TLE.astuple (t : TLE) : TLETuple :=
  (t.name, t.norad, t.classification, t.int_desig, t.epoch_year, t.epoch_day,
   t.dn_o2, t.ddn_o6, t.bstar, t.set_num, t.inc, t.raan, t.ecc, t.argp, t.M, t.n, t.rev_num)

/-- Reconstruction `TLE(*astuple(r))`: the constructor applied positionally
to the exported tuple (already-typed values, so the integer fields take the
`isinstance(_, int)` paths of the converters). -/
def TLE.ofTuple : TLETuple → Except PyError TLE
  | (name, norad, cls, intd, ey, ed, dn, ddn, bs, sn, i, ra, ec, ar, m, nn, rn) =>
    TLE.make name norad cls intd (.int ey) ed dn ddn bs (.int sn) i ra ec ar m nn (.int rn)

/-- The mapping returned by `asdict()` with default flags: exactly the
stored fields, keyed by field name (modelled as a fixed-key record). -/
structure TLEDict : Type where
  name : Str
  norad : Str
  classification : Char
  int_desig : Str
  epoch_year : ℤ
  epoch_day : ℚ
  dn_o2 : ℚ
  ddn_o6 : ℚ
  bstar : ℚ
  set_num : ℤ
  inc : ℚ
  raan : ℚ
  ecc : ℚ
  argp : ℚ
  M : ℚ
  n : ℚ
  rev_num : ℤ

def TLE.asdict (t : TLE) : TLEDict :=
  ⟨t.name, t.norad, t.classification, t.int_desig, t.epoch_year, t.epoch_day,
   t.dn_o2, t.ddn_o6, t.bstar, t.set_num, t.inc, t.raan, t.ecc, t.argp, t.M, t.n, t.rev_num⟩

/-- Reconstruction `TLE(**asdict(r))`: the constructor applied to the
exported mapping by keyword. -/
def TLE.ofDict (d : TLEDict) : Except PyError TLE :=
  TLE.make d.name d.norad d.classification d.int_desig (.int d.epoch_year) d.epoch_day
    d.dn_o2 d.ddn_o6 d.bstar (.int d.set_num) d.inc d.raan d.ecc d.argp d.M d.n
    (.int d.rev_num)

/-! ### ISS fixture (the canonical record of the tests and docstrings) -/

def issName : Str := "ISS (ZARYA)".toList

def issLine1 : Str :=
  "1 25544U 98067A   19249.04864348  .00001909  00000-0  40858-4 0  9990".toList

def issLine2 : Str :=
  "2 25544  51.6464 320.1755 0007999  10.9066  53.2893 15.50437522187805".toList

/-- The ISS record as constructed directly from typed values in the test
fixture `conftest.py`. -/
def issTLE : TLE where
  name := "ISS (ZARYA)".toList
  norad := "25544".toList
  classification := 'U'
  int_desig := "98067A".toList
  epoch_year := 2019
  epoch_day := 249.04864348
  dn_o2 := 0.00001909
  ddn_o6 := 0
  bstar := 0.000040858
  set_num := 999
  inc := 51.6464
  raan := 320.1755
  ecc := 0.0007999
  argp := 10.9066
  M := 53.2893
  n := 15.50437522
  rev_num := 18780

/-- The runtime object: the stored fields plus the private memo slots
initialized to `None` by `__attrs_post_init__`. -/
structure TLEObj : Type where
  tle : TLE
  cacheEpoch : Option ℤ
  cacheA : Option ℝ
  cacheNu : Option ℝ

/-- Object creation: `__attrs_post_init__` sets the three memo slots to
`None`. -/
def TLE.mkObj (t : TLE) : TLEObj := ⟨t, none, none, none⟩

/-- The `attrs`-generated `__eq__`: it compares exactly the declared
fields; the private memo slots are not `attrs` fields and do not
participate. -/
def pyEq (o o' : TLEObj) : Prop :=
  o.tle.name = o'.tle.name ∧ o.tle.norad = o'.tle.norad ∧
  o.tle.classification = o'.tle.classification ∧ o.tle.int_desig = o'.tle.int_desig ∧
  o.tle.epoch_year = o'.tle.epoch_year ∧ o.tle.epoch_day = o'.tle.epoch_day ∧
  o.tle.dn_o2 = o'.tle.dn_o2 ∧ o.tle.ddn_o6 = o'.tle.ddn_o6 ∧ o.tle.bstar = o'.tle.bstar ∧
  o.tle.set_num = o'.tle.set_num ∧ o.tle.inc = o'.tle.inc ∧ o.tle.raan = o'.tle.raan ∧
  o.tle.ecc = o'.tle.ecc ∧ o.tle.argp = o'.tle.argp ∧ o.tle.M = o'.tle.M ∧
  o.tle.n = o'.tle.n ∧ o.tle.rev_num = o'.tle.rev_num

/-! ### The epoch (`TLE.epoch`), at microsecond resolution -/

/-- Gregorian leap-year rule (the calendar of `numpy.datetime64`). -/
def isLeap (y : ℤ) : Bool := y % 4 == 0 && (y % 100 != 0 || y % 400 == 0)

/-- Modelled from the spec: the proleptic-Gregorian day count underlying
`numpy`'s `datetime64[Y]` year arithmetic (`numpy` is an external
collaborator; the spec prescribes native calendar arithmetic with exact
leap-year handling).  Day count of `y`-01-01 relative to 0001-01-01. -/
def civilDaysFromYear (y : ℤ) : ℤ :=
  365 * (y - 1) + (y - 1) / 4 - (y - 1) / 100 + (y - 1) / 400

/-- Days from 1970-01-01 (the `datetime64` origin) to `y`-01-01. -/
def daysFrom1970 (y : ℤ) : ℤ := civilDaysFromYear y - civilDaysFromYear 1970

/-- `np.datetime64(y - 1970, 'Y')` viewed at microsecond resolution:
microseconds since the Unix epoch at `y`-01-01T00:00:00 UTC. -/
def microsAtYearStart (y : ℤ) : ℤ := daysFrom1970 y * 86400000000

/-- Python `int(...)` applied to a float: truncation toward zero. -/
def pyTrunc (q : ℚ) : ℤ := if 0 ≤ q then ⌊q⌋ else ⌈q⌉

/-- `TLE.epoch` as microseconds since the Unix epoch:
`np.datetime64(epoch_year - 1970, 'Y') + np.timedelta64(int((epoch_day - 1) * 86400 * 10**6), 'us')`. -/
def TLE.epochMicros (t : TLE) : ℤ :=
  microsAtYearStart t.epoch_year + pyTrunc ((t.epoch_day - 1) * 86400 * 10 ^ 6)

/-- The spec's formula: midnight of Jan 1 of `epoch_year` (UTC) plus
`floor((epoch_day - 1) * 86_400_000_000)` microseconds. -/
def epochSpecMicros (y : ℤ) (d : ℚ) : ℤ :=
  microsAtYearStart y + ⌊(d - 1) * 86400000000⌋

/-- Gregorian month lengths. -/
def monthLengths (leap : Bool) : List ℕ :=
  [31, if leap then 29 else 28, 31, 30, 31, 30, 31, 31, 30, 31, 30, 31]

/-- One-based day-of-year of the civil date `m`/`d`. -/
def dayOfYear (leap : Bool) (m d : ℕ) : ℕ := ((monthLengths leap).take (m - 1)).sum + d

/-- Microseconds since the Unix epoch of a civil UTC timestamp
`y-m-d hh:mi:s.us`. -/
def civilMicros (y : ℤ) (m d hh mi s us : ℕ) : ℤ :=
  (daysFrom1970 y + (dayOfYear (isLeap y) m d : ℤ) - 1) * 86400000000 +
    (((hh * 60 + mi) * 60 + s : ℕ) : ℤ) * 1000000 + (us : ℤ)

/-! ### The implied-exponent decoder in general (C6) -/

/-- Sign denoted by the leading character of an implied-exponent field
(space and `+` count as `+`). -/
def sgnQ (c : Char) : ℚ := if c = '-' then -1 else 1

/-- Sign of the single-digit exponent. -/
def sgnZ (c : Char) : ℤ := if c = '-' then -1 else 1

/-! ### The semi-major axis (`TLE.a`) -/

/-- Modelled from the spec: `poliastro`'s `Earth.k.value` (an external
collaborator), Earth's standard gravitational parameter in m³/s²
(398600.4418 km³/s²). -/
noncomputable def Earth_k : ℝ := 3.986004418e14

/-- `TLE.a`: `(Earth.k.value / (n * π / 43200) ** 2) ** (1/3) / 1000`. -/
noncomputable def TLE.a (t : TLE) : ℝ :=
  (Earth_k / ((t.n : ℝ) * Real.pi / 43200) ^ 2) ^ ((1 : ℝ) / 3) / 1000

/-- The spec's conversion of mean motion (rev/day) to rad/s. -/
noncomputable def n_rad_per_sec (n : ℝ) : ℝ := n * Real.pi / 43200

/-- The spec's value of Earth's standard gravitational parameter. -/
noncomputable def mu_earth : ℝ := 3.986004418e14

/-- The spec's semi-major-axis formula, in kilometers. -/
noncomputable def semi_major_axis_spec (n : ℝ) : ℝ :=
  (mu_earth / n_rad_per_sec n ^ 2) ^ ((1 : ℝ) / 3) / 1000

/-- The lazily-memoized `a` property: one read through the `_a` slot,
returning the value and the updated slot. -/
noncomputable def TLE.aAccess (t : TLE) (cache : Option ℝ) : ℝ × Option ℝ :=
  match cache with
  | none => (t.a, some t.a)
  | some v => (v, some v)

/-! ### The true anomaly (`TLE.nu`) -/

noncomputable def DEG2RAD : ℝ := Real.pi / 180

noncomputable def RAD2DEG : ℝ := 180 / Real.pi

/-- Python's float `%` with positive divisor 360 (the result carries the
divisor's sign): `x % 360 = x - 360 * ⌊x / 360⌋`, in `[0, 360)`. -/
noncomputable def pyMod360 (x : ℝ) : ℝ := x - 360 * ⌊x / 360⌋

/-- The wrap performed by `TLE.nu`: `(M + 180) % 360 - 180`. -/
noncomputable def wrapDeg (M : ℝ) : ℝ := pyMod360 (M + 180) - 180

open Classical in
/-- Modelled from the spec: `poliastro`'s `M_to_E` (an external
collaborator), idealized as an exact root in `[-π, π]` of Kepler's
equation `E - ecc * sin E = M`; the spec prescribes an iterative
Newton-type solver with starting guess `E₀ = M`, tolerance about 1e-8 and
an iteration cap, which converges for `ecc ∈ [0, 1)` and wrapped `M`. -/
noncomputable def M_to_E (M ecc : ℝ) : ℝ :=
  if h : ∃ E ∈ Set.Icc (-Real.pi) Real.pi, E - ecc * Real.sin E = M then h.choose else M

/-- Modelled from the spec: `poliastro`'s `E_to_nu`,
`nu = 2 * atan2(√(1+ecc) * sin(E/2), √(1-ecc) * cos(E/2))`, where
`atan2 y x` is the argument of the complex number `x + y·i`. -/
noncomputable def E_to_nu (E ecc : ℝ) : ℝ :=
  2 * Complex.arg ⟨Real.sqrt (1 - ecc) * Real.cos (E / 2),
    Real.sqrt (1 + ecc) * Real.sin (E / 2)⟩

/-- `utils.M_to_nu`: `E_to_nu(M_to_E(M, ecc), ecc)`. -/
noncomputable def M_to_nu (M ecc : ℝ) : ℝ := E_to_nu (M_to_E M ecc) ecc

/-- `TLE.nu`: `M = ((self.M + 180) % 360 - 180) * DEG2RAD;`
`_M_to_nu(M, self.ecc) * RAD2DEG`. -/
noncomputable def TLE.nu (t : TLE) : ℝ :=
  M_to_nu (wrapDeg (t.M : ℝ) * DEG2RAD) (t.ecc : ℝ) * RAD2DEG

/-- The boundary record: the ISS record with `M = 180` degrees and a
circular orbit. -/
def boundaryTLE : TLE := { issTLE with M := 180, ecc := 0 }

lemma chunksSpec_nil_of_lt {α : Type} (l : List α) (n : ℕ) (h : l.length < n) :
    chunksSpec l n = [] := by
  unfold chunksSpec
  rw [Nat.div_eq_of_lt h]
  rfl

lemma chunksSpec_step {α : Type} (l : List α) (n : ℕ) (hn : 1 ≤ n) (h : n ≤ l.length) :
    chunksSpec l n = l.take n :: chunksSpec (l.drop n) n := by
  unfold chunksSpec
  rw [List.length_drop, Nat.div_eq_sub_div (by omega) h, List.range_succ_eq_map,
    List.map_cons, List.map_map]
  refine congrArg₂ _ (by simp) ?_
  refine List.map_congr_left fun i _ => ?_
  simp only [Function.comp_apply, List.drop_drop]
  rw [Nat.mul_succ, Nat.add_comm]

lemma partition_false_eq {α : Type} (n : ℕ) (hn : 1 ≤ n) (l : List α) :
    partition l n false = chunksSpec l n := by
  suffices H : ∀ (k : ℕ) (l : List α), l.length ≤ k → partition l n false = chunksSpec l n from
    H l.length l le_rfl
  intro k
  induction k with
  | zero =>
    intro l hl
    have hlen : l.length < n := by omega
    rw [partition, dif_neg (show ¬n = 0 by omega), dif_pos hlen,
      chunksSpec_nil_of_lt l n hlen]
    rfl
  | succ k ih =>
    intro l hl
    by_cases hlen : l.length < n
    · rw [partition, dif_neg (show ¬n = 0 by omega), dif_pos hlen,
        chunksSpec_nil_of_lt l n hlen]
      rfl
    · push_neg at hlen
      rw [partition, dif_neg (show ¬n = 0 by omega), dif_neg (show ¬l.length < n by omega),
        ih (l.drop n) (by simp only [List.length_drop]; omega),
        chunksSpec_step l n hn hlen]

lemma partition_true_eq {α : Type} (n : ℕ) (hn : 1 ≤ n) (l : List α) :
    partition l n true = chunksSpec l n ++ [l.drop (n * (l.length / n))] := by
  suffices H : ∀ (k : ℕ) (l : List α), l.length ≤ k →
      partition l n true = chunksSpec l n ++ [l.drop (n * (l.length / n))] from
    H l.length l le_rfl
  intro k
  induction k with
  | zero =>
    intro l hl
    have hlen : l.length < n := by omega
    rw [partition, dif_neg (show ¬n = 0 by omega), dif_pos hlen,
      chunksSpec_nil_of_lt l n hlen, Nat.div_eq_of_lt hlen]
    simp
  | succ k ih =>
    intro l hl
    by_cases hlen : l.length < n
    · rw [partition, dif_neg (show ¬n = 0 by omega), dif_pos hlen,
        chunksSpec_nil_of_lt l n hlen, Nat.div_eq_of_lt hlen]
      simp
    · push_neg at hlen
      rw [partition, dif_neg (show ¬n = 0 by omega), dif_neg (show ¬l.length < n by omega),
        ih (l.drop n) (by simp only [List.length_drop]; omega),
        chunksSpec_step l n hn hlen, List.cons_append]
      congr 2
      rw [List.drop_drop, List.length_drop,
        Nat.div_eq_sub_div (by omega) hlen, Nat.mul_add, Nat.mul_one, Nat.add_comm]

/-- C4: for every finite sequence and group size `n ≥ 1`, `partition`
yields the consecutive non-overlapping `n`-tuples in order, discarding a
trailing short group; with the `rest` flag set and the length not a
multiple of `n`, the trailing short (nonempty, shorter than `n`) group is
yielded instead; in particular on `range 8` with `n = 3` it yields
`[(0,1,2),(3,4,5)]`, resp. `[(0,1,2),(3,4,5),(6,7)]`. -/
theorem partition_groups_and_remainder :
    (∀ (α : Type) (l : List α) (n : ℕ), 1 ≤ n →
        partition l n false = chunksSpec l n ∧
        (¬ n ∣ l.length →
          partition l n true = chunksSpec l n ++ [l.drop (n * (l.length / n))] ∧
          l.drop (n * (l.length / n)) ≠ [] ∧
          (l.drop (n * (l.length / n))).length < n)) ∧
    partition (List.range 8) 3 false = [[0, 1, 2], [3, 4, 5]] ∧
    partition (List.range 8) 3 true = [[0, 1, 2], [3, 4, 5], [6, 7]] := by
  refine ⟨fun α l n hn => ⟨partition_false_eq n hn l, fun hdvd => ⟨partition_true_eq n hn l, ?_, ?_⟩⟩, ?_, ?_⟩
  · intro hnil
    apply hdvd
    have hlen := congrArg List.length hnil
    simp only [List.length_drop, List.length_nil] at hlen
    have h2 := Nat.mod_add_div l.length n
    exact Nat.dvd_of_mod_eq_zero (by omega)
  · have h2 := Nat.mod_add_div l.length n
    have h3 := Nat.mod_lt l.length (show 0 < n by omega)
    simp only [List.length_drop]
    omega
  · rw [partition_false_eq 3 (by norm_num)]
    decide
  · rw [partition_true_eq 3 (by norm_num)]
    decide

/-- Witness for C4 at `l = range 8`, `n = 3`. -/
theorem partition_groups_and_remainder_witness :
    ((1 : ℕ) ≤ 3 ∧ ¬(3 : ℕ) ∣ (List.range 8).length) ∧
    (partition (List.range 8) 3 true =
        chunksSpec (List.range 8) 3 ++ [(List.range 8).drop (3 * ((List.range 8).length / 3))] ∧
      (List.range 8).drop (3 * ((List.range 8).length / 3)) ≠ [] ∧
      ((List.range 8).drop (3 * ((List.range 8).length / 3))).length < 3) :=
  ⟨⟨by norm_num, by decide⟩,
    (partition_groups_and_remainder.1 ℕ (List.range 8) 3 (by norm_num)).2 (by decide!)⟩

/-- C10: on an input whose length is a positive exact multiple of `n ≥ 1`,
setting the `rest` flag appends one trailing empty group to the output. -/
theorem partition_rest_appends_empty_group :
    ∀ (α : Type) (l : List α) (n k : ℕ), 1 ≤ n → l.length = n * k → 0 < k →
      partition l n true = partition l n false ++ [([] : List α)] := by
  intro α l n k hn hlen hk
  rw [partition_true_eq n hn l, partition_false_eq n hn l]
  have h1 : n * (l.length / n) = l.length := by
    rw [hlen, Nat.mul_div_cancel_left k (show 0 < n by omega)]
  rw [h1, List.drop_length]

/-- Witness for C10 at `l = [0,1,2]`, `n = 3`, `k = 1`. -/
theorem partition_rest_appends_empty_group_witness :
    ((1 : ℕ) ≤ 3 ∧ ([0, 1, 2] : List ℕ).length = 3 * 1 ∧ (0 : ℕ) < 1) ∧
    partition ([0, 1, 2] : List ℕ) 3 true = partition ([0, 1, 2] : List ℕ) 3 false ++ [[]] :=
  ⟨⟨by norm_num, by decide, by norm_num⟩,
    partition_rest_appends_empty_group ℕ [0, 1, 2] 3 1 (by norm_num) (by decide) (by norm_num)⟩

/-! ### Strip lemmas -/

lemma dropWhile_head?_not (p : Char → Bool) (l : Str) :
    ∀ c, (l.dropWhile p).head? = some c → p c = false := by
  induction l with
  | nil => intro c h; simp at h
  | cons a l ih =>
    intro c h
    by_cases pa : p a
    · simp only [List.dropWhile_cons, pa, if_true] at h
      exact ih c h
    · rw [Bool.not_eq_true] at pa
      simp only [List.dropWhile_cons, pa, Bool.false_eq_true, if_false, List.head?_cons,
        Option.some.injEq] at h
      rw [← h]
      exact pa

lemma getLast?_dropWhile (p : Char → Bool) (m : Str) (h : m.dropWhile p ≠ []) :
    (m.dropWhile p).getLast? = m.getLast? := by
  induction m with
  | nil => simp at h
  | cons a m ih =>
    by_cases pa : p a
    · simp only [List.dropWhile_cons, pa, if_true] at h ⊢
      have hm : m ≠ [] := by
        intro hm
        rw [hm] at h
        simp at h
      rw [ih h, List.getLast?_cons]
      cases hx : m.getLast? with
      | none => exact absurd (List.getLast?_eq_none_iff.mp hx) hm
      | some x => rfl
    · rw [Bool.not_eq_true] at pa
      simp only [List.dropWhile_cons, pa, Bool.false_eq_true, if_false]

lemma dropWhile_eq_self_of_head? (p : Char → Bool) (l : Str)
    (h : ∀ c, l.head? = some c → p c = false) : l.dropWhile p = l := by
  cases l with
  | nil => rfl
  | cons a l => simp [List.dropWhile_cons, h a rfl]

lemma stripSpaces_idem (l : Str) : stripSpaces (stripSpaces l) = stripSpaces l := by
  by_cases hs : stripSpaces l = []
  · rw [hs]; rfl
  · have hstrip : stripSpaces l = ((l.dropWhile isSpace).reverse.dropWhile isSpace).reverse := rfl
    set X := l.dropWhile isSpace with hX
    set Y := X.reverse.dropWhile isSpace with hY
    have hYhead : ∀ c, Y.head? = some c → isSpace c = false := by
      rw [hY]; exact dropWhile_head?_not _ _
    have hXhead : ∀ c, X.head? = some c → isSpace c = false := by
      rw [hX]; exact dropWhile_head?_not _ _
    have hYne : Y ≠ [] := by
      intro h0
      exact hs (by rw [hstrip, h0]; rfl)
    have hYlast : ∀ c, Y.getLast? = some c → isSpace c = false := by
      intro c hc
      rw [hY, getLast?_dropWhile isSpace X.reverse (by rw [← hY]; exact hYne),
        List.getLast?_reverse] at hc
      exact hXhead c hc
    rw [hstrip]
    show ((Y.reverse.dropWhile isSpace).reverse.dropWhile isSpace).reverse = Y.reverse
    have h1 : Y.reverse.dropWhile isSpace = Y.reverse :=
      dropWhile_eq_self_of_head? _ _ (fun c hc => hYlast c (by rwa [List.head?_reverse] at hc))
    rw [h1, List.reverse_reverse, dropWhile_eq_self_of_head? _ _ hYhead]

lemma exBind_ok {α β : Type} (a : α) (f : α → Except PyError β) :
    (Except.ok a >>= f) = f a := rfl

lemma exBind_error {α β : Type} (e : PyError) (f : α → Except PyError β) :
    ((Except.error e : Except PyError α) >>= f) = .error e := rfl

/-- Inversion principle for the constructor: a successful construction
determines the record's fields from the arguments. -/
lemma TLE.make_ok_iff (name norad : Str) (cls : Char) (intd : Str) (ey : PyScalar)
    (ed dn ddn bs : ℚ) (sn : PyScalar) (i ra ec ar m nn : ℚ) (rn : PyScalar) (r : TLE) :
    TLE.make name norad cls intd ey ed dn ddn bs sn i ra ec ar m nn rn = .ok r ↔
      (∃ y s z, conv_year ey = .ok y ∧ intConv sn = .ok s ∧ intConv rn = .ok z ∧
        r = { name := stripSpaces name, norad := stripSpaces norad, classification := cls,
              int_desig := stripSpaces intd, epoch_year := y, epoch_day := ed, dn_o2 := dn,
              ddn_o6 := ddn, bstar := bs, set_num := s, inc := i, raan := ra, ecc := ec,
              argp := ar, M := m, n := nn, rev_num := z }) := by
  unfold TLE.make
  cases hy : conv_year ey with
  | error e => simp [exBind_error, hy]
  | ok y =>
    rw [exBind_ok]
    cases hs : intConv sn with
    | error e => simp [exBind_error, hs]
    | ok s =>
      rw [exBind_ok]
      cases hz : intConv rn with
      | error e => simp [exBind_error, hz]
      | ok z =>
        rw [exBind_ok]
        show Except.ok _ = Except.ok r ↔ _
        constructor
        · intro h
          exact ⟨y, s, z, rfl, rfl, rfl, by cases h; rfl⟩
        · rintro ⟨y', s', z', hy', hs', hz', rfl⟩
          simp only [hy, Except.ok.injEq] at hy'
          simp only [hs, Except.ok.injEq] at hs'
          simp only [hz, Except.ok.injEq] at hz'
          subst hy'
          subst hs'
          subst hz'
          rfl

/-! ### Claims about the field grammar and record model -/

/-- C7: the two-digit year decoder maps a source value `y ∈ [0, 99]` to
`1900 + y` when `y ≥ 57` and to `2000 + y` otherwise; in particular `56`
decodes to `2056` and `57` to `1957`. -/
theorem conv_year_pivot :
    (∀ y : ℕ, y ≤ 99 →
        conv_year (.str (twoDigits y)) =
          .ok (if 57 ≤ y then 1900 + (y : ℤ) else 2000 + (y : ℤ))) ∧
    conv_year (.str (twoDigits 56)) = .ok 2056 ∧
    conv_year (.str (twoDigits 57)) = .ok 1957 := by
  refine ⟨?_, by decide, by decide⟩
  decide

/-- Witness for C7 at `y = 56`. -/
theorem conv_year_pivot_witness :
    (56 : ℕ) ≤ 99 ∧
    conv_year (.str (twoDigits 56)) =
      .ok (if 57 ≤ (56 : ℕ) then 1900 + ((56 : ℕ) : ℤ) else 2000 + ((56 : ℕ) : ℤ)) :=
  ⟨by norm_num, conv_year_pivot.1 56 (by norm_num)⟩

/-- C3 counterexample: a 66-character line 1 is shorter than the maximum
required column 68, yet `from_lines` succeeds on it instead of failing
with a `MalformedLine` error. -/
theorem short_line_no_malformed_counterexample :
    (issLine1.take 66).length < 68 ∧
    (TLE.from_lines issName (issLine1.take 66) issLine2).isOk = true := by
  constructor
  · decide
  · decide

/-- C3 (amended): `from_lines` performs no line-length validation and has
no typed `MalformedLine` failure: a line shorter than the maximum required
column either parses successfully from the truncated fields (66-character
line 1: `set_num` is read from the two remaining characters), or raises an
untyped `ValueError` (empty `epoch_day` slice at 20 characters) or
`IndexError` (classification index at 7 characters). -/
theorem short_line_behavior :
    (TLE.from_lines issName (issLine1.take 66) issLine2).map TLE.set_num = .ok 9 ∧
    TLE.from_lines issName (issLine1.take 20) issLine2 = .error .valueError ∧
    TLE.from_lines issName (issLine1.take 7) issLine2 = .error .indexError ∧
    (issLine1.take 66).length < 68 ∧ (issLine1.take 20).length < 68 ∧
    (issLine1.take 7).length < 68 := by
  refine ⟨by decide!, by decide, by decide, by decide, by decide, by decide⟩

/-- C8: reconstructing a record from its exported tuple or mapping yields
an equal record (the converters are idempotent on already-converted
values), and object equality holds iff every stored field compares equal
— the memo slots do not participate. -/
theorem roundtrip_tuple_dict_eq :
    (∀ (name norad : Str) (cls : Char) (intd : Str) (ey : PyScalar) (ed dn ddn bs : ℚ)
        (sn : PyScalar) (i ra ec ar m nn : ℚ) (rn : PyScalar) (r : TLE),
        TLE.make name norad cls intd ey ed dn ddn bs sn i ra ec ar m nn rn = .ok r →
          TLE.ofTuple (TLE.astuple r) = .ok r ∧ TLE.ofDict (TLE.asdict r) = .ok r) ∧
    (∀ o o' : TLEObj, pyEq o o' ↔ o.tle = o'.tle) := by
  constructor
  · intro name norad cls intd ey ed dn ddn bs sn i ra ec ar m nn rn r h
    rw [TLE.make_ok_iff] at h
    obtain ⟨y, s, z, -, -, -, rfl⟩ := h
    constructor
    · show TLE.ofTuple _ = _
      unfold TLE.astuple TLE.ofTuple
      rw [TLE.make_ok_iff]
      exact ⟨y, s, z, rfl, rfl, rfl, by simp [stripSpaces_idem]⟩
    · show TLE.ofDict _ = _
      unfold TLE.asdict TLE.ofDict
      rw [TLE.make_ok_iff]
      exact ⟨y, s, z, rfl, rfl, rfl, by simp [stripSpaces_idem]⟩
  · intro o o'
    constructor
    · rintro ⟨h1, h2, h3, h4, h5, h6, h7, h8, h9, h10, h11, h12, h13, h14, h15, h16, h17⟩
      exact TLE.ext h1 h2 h3 h4 h5 h6 h7 h8 h9 h10 h11 h12 h13 h14 h15 h16 h17
    · intro h
      unfold pyEq
      rw [h]
      exact ⟨rfl, rfl, rfl, rfl, rfl, rfl, rfl, rfl, rfl, rfl, rfl, rfl, rfl, rfl, rfl, rfl,
        rfl⟩

/-- Witness for C8 at the ISS record constructed from typed values. -/
theorem roundtrip_tuple_dict_eq_witness :
    TLE.make issName ("25544".toList) 'U' ("98067A".toList) (.int 2019) 249.04864348
        0.00001909 0 0.000040858 (.int 999) 51.6464 320.1755 0.0007999 10.9066 53.2893
        15.50437522 (.int 18780) = .ok issTLE ∧
    (TLE.ofTuple (TLE.astuple issTLE) = .ok issTLE ∧
      TLE.ofDict (TLE.asdict issTLE) = .ok issTLE) :=
  ⟨by decide!,
    roundtrip_tuple_dict_eq.1 issName ("25544".toList) 'U' ("98067A".toList) (.int 2019)
      249.04864348 0.00001909 0 0.000040858 (.int 999) 51.6464 320.1755 0.0007999 10.9066
      53.2893 15.50437522 (.int 18780) issTLE (by decide!)⟩

/-- C9 counterexample: `from_lines` accepts a line whose classification
column holds a space; the resulting record's classification is the raw,
unstripped `' '`, which is not in `{U, C, S}`. -/
theorem classification_unvalidated_counterexample :
    (TLE.from_lines issName (issLine1.set 7 ' ') issLine2).map TLE.classification =
      .ok ' ' ∧
    ¬ (' ' ∈ (['U', 'C', 'S'] : List Char)) ∧
    stripSpaces [' '] ≠ [' '] := by
  refine ⟨by decide!, by decide, by decide⟩

/-- C9 (amended): every constructed record has `name`, `norad` and
`int_desig` stripped of surrounding whitespace; `classification` is stored
raw — a single character taken verbatim, with no validation against
`{U, C, S}` and no stripping. -/
theorem constructed_fields_stripped :
    ∀ (name norad : Str) (cls : Char) (intd : Str) (ey : PyScalar) (ed dn ddn bs : ℚ)
      (sn : PyScalar) (i ra ec ar m nn : ℚ) (rn : PyScalar) (r : TLE),
      TLE.make name norad cls intd ey ed dn ddn bs sn i ra ec ar m nn rn = .ok r →
        stripSpaces r.name = r.name ∧ stripSpaces r.norad = r.norad ∧
        stripSpaces r.int_desig = r.int_desig ∧ r.classification = cls := by
  intro name norad cls intd ey ed dn ddn bs sn i ra ec ar m nn rn r h
  rw [TLE.make_ok_iff] at h
  obtain ⟨y, s, z, -, -, -, rfl⟩ := h
  exact ⟨stripSpaces_idem _, stripSpaces_idem _, stripSpaces_idem _, rfl⟩

/-- Witness for the amended C9 at the ISS record. -/
theorem constructed_fields_stripped_witness :
    TLE.make issName ("  25544 ".toList) 'U' (" 98067A  ".toList) (.int 2019) 249.04864348
        0.00001909 0 0.000040858 (.int 999) 51.6464 320.1755 0.0007999 10.9066 53.2893
        15.50437522 (.int 18780) = .ok issTLE ∧
    (stripSpaces issTLE.name = issTLE.name ∧ stripSpaces issTLE.norad = issTLE.norad ∧
      stripSpaces issTLE.int_desig = issTLE.int_desig ∧ issTLE.classification = 'U') :=
  ⟨by decide!,
    constructed_fields_stripped issName ("  25544 ".toList) 'U' (" 98067A  ".toList)
      (.int 2019) 249.04864348 0.00001909 0 0.000040858 (.int 999) 51.6464 320.1755
      0.0007999 10.9066 53.2893 15.50437522 (.int 18780) issTLE (by decide!)⟩

/-- C2: for `epoch_day ≥ 1` the code's truncation coincides with the
spec's floor formula; the year arithmetic advances by 366 days exactly
across leap years and 365 otherwise; and the canonical ISS record's epoch
is 2019-09-06T01:10:02.796672Z. Day-of-year semantics are checked on both
sides of a leap day: day 60 of 2020 is Feb 29, day 60 of 2019 is Mar 1. -/
theorem epoch_formula :
    (∀ t : TLE, 1 ≤ t.epoch_day →
        TLE.epochMicros t = epochSpecMicros t.epoch_year t.epoch_day) ∧
    (∀ y : ℤ, daysFrom1970 (y + 1) - daysFrom1970 y = if isLeap y then 366 else 365) ∧
    TLE.epochMicros issTLE = civilMicros 2019 9 6 1 10 2 796672 ∧
    TLE.epochMicros { issTLE with epoch_year := 2020, epoch_day := 60 } =
      civilMicros 2020 2 29 0 0 0 0 ∧
    TLE.epochMicros { issTLE with epoch_year := 2019, epoch_day := 60 } =
      civilMicros 2019 3 1 0 0 0 0 := by
  refine ⟨?_, ?_, by decide!, by decide!, by decide!⟩
  · intro t hd
    unfold TLE.epochMicros epochSpecMicros pyTrunc
    have h1 : (0:ℚ) ≤ t.epoch_day - 1 := by linarith
    have h0 : (0:ℚ) ≤ (t.epoch_day - 1) * 86400 * 10 ^ 6 := by
      have := mul_nonneg (mul_nonneg h1 (by norm_num : (0:ℚ) ≤ 86400))
        (by norm_num : (0:ℚ) ≤ 10 ^ 6)
      linarith
    rw [if_pos h0]
    congr 2
    ring
  · intro y
    unfold daysFrom1970 civilDaysFromYear isLeap
    simp only [add_sub_cancel_right, Bool.and_eq_true, beq_iff_eq, Bool.or_eq_true,
      bne_iff_ne]
    split_ifs with h
    · omega
    · omega

/-- Witness for C2 at the ISS record. -/
theorem epoch_formula_witness :
    (1 : ℚ) ≤ issTLE.epoch_day ∧
    TLE.epochMicros issTLE = epochSpecMicros issTLE.epoch_year issTLE.epoch_day :=
  ⟨by decide!, epoch_formula.1 issTLE (by decide!)⟩

lemma not_space_of_digit {c : Char} (h : isDigit c = true) : isSpace c = false := by
  by_contra hns
  rw [Bool.not_eq_false] at hns
  have hc : c = ' ' := by simpa [isSpace] using hns
  subst hc
  exact absurd h (by decide)

lemma not_exp_of_digit {c : Char} (h : isDigit c = true) : isExpChar c = false := by
  by_contra hns
  rw [Bool.not_eq_false] at hns
  simp only [isExpChar, Bool.or_eq_true, beq_iff_eq] at hns
  rcases hns with rfl | rfl
  · exact absurd h (by decide)
  · exact absurd h (by decide)

lemma isSpace_space : isSpace ' ' = true := by decide

lemma isSpace_dot : isSpace '.' = false := by decide

lemma isSpace_plus : isSpace '+' = false := by decide

lemma isSpace_minus : isSpace '-' = false := by decide

lemma isSpace_e : isSpace 'e' = false := by decide

lemma isDigit_dot : isDigit '.' = false := by decide

lemma isExpChar_dot : isExpChar '.' = false := by decide

lemma isExpChar_e : isExpChar 'e' = true := by decide

lemma pyFloat_implied (c0 d1 d2 d3 d4 d5 s6 d7 : Char)
    (h0 : c0 = ' ' ∨ c0 = '+' ∨ c0 = '-')
    (h1 : isDigit d1 = true) (h2 : isDigit d2 = true) (h3 : isDigit d3 = true)
    (h4 : isDigit d4 = true) (h5 : isDigit d5 = true)
    (hs : s6 = '+' ∨ s6 = '-') (h7 : isDigit d7 = true) :
    pyFloat [c0, '.', d1, d2, d3, d4, d5, 'e', s6, d7] =
      some (sgnQ c0 * ((natOfDigits [d1, d2, d3, d4, d5] : ℚ) / 10 ^ 5) *
        10 ^ (sgnZ s6 * (digToNat d7 : ℤ))) := by
  rcases h0 with rfl | rfl | rfl <;> rcases hs with rfl | rfl <;>
    simp [pyFloat, stripSpaces, parseMantissa, splitSign, sgnQ, sgnZ, natOfDigits,
      List.dropWhile_cons, List.takeWhile_cons,
      isSpace_space, isSpace_dot, isSpace_plus, isSpace_minus, isSpace_e,
      isDigit_dot, isExpChar_dot, isExpChar_e,
      not_space_of_digit h1, not_space_of_digit h2, not_space_of_digit h3,
      not_space_of_digit h4, not_space_of_digit h5, not_space_of_digit h7,
      not_exp_of_digit h1, not_exp_of_digit h2, not_exp_of_digit h3,
      not_exp_of_digit h4, not_exp_of_digit h5,
      h1, h2, h3, h4, h5, h7]

/-- C6: on an 8-character field `sign/space, five mantissa digits, signed
single-digit exponent`, the implied-exponent decoder returns
`sign * 0.ddddd * 10^(signed exponent)`, a leading space counting as `+`;
in particular `" 12345-3"` decodes to `0.00012345`, `"+12345-3"` to the
same value and `"-12345-3"` to its negation. -/
theorem parse_float_implied_exponent :
    (∀ c0 d1 d2 d3 d4 d5 s6 d7 : Char,
        (c0 = ' ' ∨ c0 = '+' ∨ c0 = '-') →
        isDigit d1 = true → isDigit d2 = true → isDigit d3 = true → isDigit d4 = true →
        isDigit d5 = true → (s6 = '+' ∨ s6 = '-') → isDigit d7 = true →
        parse_float [c0, d1, d2, d3, d4, d5, s6, d7] =
          .ok (sgnQ c0 * ((natOfDigits [d1, d2, d3, d4, d5] : ℚ) / 10 ^ 5) *
            10 ^ (sgnZ s6 * (digToNat d7 : ℤ)))) ∧
    parse_float (" 12345-3".toList) = .ok (12345 / 100000000 : ℚ) ∧
    parse_float ("+12345-3".toList) = .ok (12345 / 100000000 : ℚ) ∧
    parse_float ("-12345-3".toList) = .ok (-(12345 / 100000000) : ℚ) := by
  refine ⟨?_, by decide!, by decide!, by decide!⟩
  intro c0 d1 d2 d3 d4 d5 s6 d7 h0 h1 h2 h3 h4 h5 hs h7
  have hred : parse_float [c0, d1, d2, d3, d4, d5, s6, d7] =
      ofOption (pyFloat [c0, '.', d1, d2, d3, d4, d5, 'e', s6, d7]) := rfl
  rw [hred, pyFloat_implied c0 d1 d2 d3 d4 d5 s6 d7 h0 h1 h2 h3 h4 h5 hs h7]
  rfl

/-- Witness for C6 at the field `" 12345-3"`. -/
theorem parse_float_implied_exponent_witness :
    ((' ' = ' ' ∨ ' ' = '+' ∨ ' ' = '-') ∧ isDigit '1' = true ∧ isDigit '2' = true ∧
      isDigit '3' = true ∧ isDigit '4' = true ∧ isDigit '5' = true ∧
      ('-' = '+' ∨ '-' = '-') ∧ isDigit '3' = true) ∧
    parse_float [' ', '1', '2', '3', '4', '5', '-', '3'] =
      .ok (sgnQ ' ' * ((natOfDigits ['1', '2', '3', '4', '5'] : ℚ) / 10 ^ 5) *
        10 ^ (sgnZ '-' * (digToNat '3' : ℤ))) :=
  ⟨⟨Or.inl rfl, by decide, by decide, by decide, by decide, by decide, Or.inr rfl, by decide⟩,
    parse_float_implied_exponent.1 ' ' '1' '2' '3' '4' '5' '-' '3' (Or.inl rfl) (by decide)
      (by decide) (by decide) (by decide) (by decide) (Or.inr rfl) (by decide)⟩

/-- C5: the derived semi-major axis is `(mu/(n·π/43200)²)^(1/3)/1000` km,
and the `_a` slot memoizes it: the first read computes and stores the
formula's value, and any read through an updated slot returns the cached
value unchanged. -/
theorem semi_major_axis_formula :
    ∀ t : TLE, 0 < t.n →
      TLE.a t = semi_major_axis_spec (t.n : ℝ) ∧
      TLE.aAccess t none = (TLE.a t, some (TLE.a t)) ∧
      (∀ c : Option ℝ,
        TLE.aAccess t (TLE.aAccess t c).2 = ((TLE.aAccess t c).1, (TLE.aAccess t c).2)) := by
  intro t ht
  refine ⟨rfl, rfl, ?_⟩
  intro c
  cases c <;> rfl

/-- Witness for C5 at the ISS record. -/
theorem semi_major_axis_formula_witness :
    (0 : ℚ) < issTLE.n ∧
    (TLE.a issTLE = semi_major_axis_spec (issTLE.n : ℝ) ∧
      TLE.aAccess issTLE none = (TLE.a issTLE, some (TLE.a issTLE)) ∧
      (∀ c : Option ℝ,
        TLE.aAccess issTLE (TLE.aAccess issTLE c).2 =
          ((TLE.aAccess issTLE c).1, (TLE.aAccess issTLE c).2))) :=
  ⟨by decide!, semi_major_axis_formula issTLE (by decide!)⟩

lemma wrapDeg_mem (M : ℝ) : wrapDeg M ∈ Set.Ico (-180 : ℝ) 180 := by
  have hfl := Int.floor_le ((M + 180) / 360)
  have hfu := Int.lt_floor_add_one ((M + 180) / 360)
  have h360 : (360 : ℝ) * ((M + 180) / 360) = M + 180 := by ring
  have hmul1 : (360 : ℝ) * (⌊(M + 180) / 360⌋ : ℝ) ≤ 360 * ((M + 180) / 360) := by
    have := mul_le_mul_of_nonneg_left hfl (show (0:ℝ) ≤ 360 by norm_num)
    linarith
  have hmul2 : (360 : ℝ) * ((M + 180) / 360) < 360 * ((⌊(M + 180) / 360⌋ : ℝ) + 1) := by
    have := mul_lt_mul_of_pos_left hfu (show (0:ℝ) < 360 by norm_num)
    linarith
  unfold wrapDeg pyMod360
  rw [Set.mem_Ico]
  constructor
  · linarith
  · linarith

lemma kepler_root_exists (ecc M : ℝ) (hM : M ∈ Set.Icc (-Real.pi) Real.pi) :
    ∃ E ∈ Set.Icc (-Real.pi) Real.pi, E - ecc * Real.sin E = M := by
  have hcont : ContinuousOn (fun E : ℝ => E - ecc * Real.sin E)
      (Set.Icc (-Real.pi) Real.pi) :=
    (continuous_id.sub (continuous_const.mul Real.continuous_sin)).continuousOn
  have hle : -Real.pi ≤ Real.pi := by linarith [Real.pi_pos]
  have hIVT := intermediate_value_Icc hle hcont
  have ha : -Real.pi - ecc * Real.sin (-Real.pi) = -Real.pi := by
    rw [Real.sin_neg, Real.sin_pi]
    ring
  have hb : Real.pi - ecc * Real.sin Real.pi = Real.pi := by
    rw [Real.sin_pi]
    ring
  rw [ha, hb] at hIVT
  obtain ⟨E, hE, hfE⟩ := hIVT hM
  exact ⟨E, hE, hfE⟩

lemma M_to_E_spec (ecc : ℝ) {M : ℝ} (hM : M ∈ Set.Icc (-Real.pi) Real.pi) :
    M_to_E M ecc ∈ Set.Icc (-Real.pi) Real.pi ∧
      M_to_E M ecc - ecc * Real.sin (M_to_E M ecc) = M := by
  unfold M_to_E
  rw [dif_pos (kepler_root_exists ecc M hM)]
  exact ⟨(kepler_root_exists ecc M hM).choose_spec.1,
    (kepler_root_exists ecc M hM).choose_spec.2⟩

lemma E_to_nu_mem {E ecc : ℝ} (h0 : 0 ≤ ecc) (h1 : ecc < 1)
    (hE : E ∈ Set.Ico (-Real.pi) Real.pi) :
    E_to_nu E ecc ∈ Set.Ico (-Real.pi) Real.pi := by
  obtain ⟨hEl, hEr⟩ := hE
  have hpi := Real.pi_pos
  rcases eq_or_lt_of_le hEl with heq | hlt
  · -- boundary case `E = -π`: the angle is exactly `-π`
    have harg : Complex.arg ⟨Real.sqrt (1 - ecc) * Real.cos (E / 2),
        Real.sqrt (1 + ecc) * Real.sin (E / 2)⟩ = -(Real.pi / 2) := by
      rw [Complex.arg_eq_neg_pi_div_two_iff]
      constructor
      · show Real.sqrt (1 - ecc) * Real.cos (E / 2) = 0
        have : E / 2 = -(Real.pi / 2) := by rw [← heq]; ring
        rw [this, Real.cos_neg, Real.cos_pi_div_two, mul_zero]
      · show Real.sqrt (1 + ecc) * Real.sin (E / 2) < 0
        have : E / 2 = -(Real.pi / 2) := by rw [← heq]; ring
        rw [this, Real.sin_neg, Real.sin_pi_div_two]
        have : 0 < Real.sqrt (1 + ecc) := Real.sqrt_pos.mpr (by linarith)
        nlinarith
    unfold E_to_nu
    rw [harg]
    constructor
    · linarith
    · linarith
  · -- interior case: the real part is positive, so the angle is in `(-π/2, π/2)`
    have hcos : 0 < Real.cos (E / 2) :=
      Real.cos_pos_of_mem_Ioo ⟨by linarith, by linarith⟩
    have hre : 0 < Real.sqrt (1 - ecc) * Real.cos (E / 2) :=
      mul_pos (Real.sqrt_pos.mpr (by linarith)) hcos
    have habs : |Complex.arg ⟨Real.sqrt (1 - ecc) * Real.cos (E / 2),
        Real.sqrt (1 + ecc) * Real.sin (E / 2)⟩| < Real.pi / 2 :=
      Complex.abs_arg_lt_pi_div_two_iff.mpr (Or.inl hre)
    rw [abs_lt] at habs
    unfold E_to_nu
    constructor
    · linarith [habs.1]
    · linarith [habs.2]

/-- C1 (amended): for eccentricity in `[0, 1)`, `nu` first wraps the mean
anomaly into `[-180, 180)` degrees via `((M + 180) mod 360) - 180`,
converts to radians, solves Kepler's equation (the solved eccentric
anomaly satisfies `E - e·sin E = M_wrapped` within `[-π, π]`), and returns
the true anomaly in degrees in `[-180, 180)`; for `M = 287.0641` the wrap
gives `-72.9359`, well inside the solver's domain. -/
theorem nu_wrap_and_range :
    (∀ t : TLE, 0 ≤ t.ecc → t.ecc < 1 →
        wrapDeg (t.M : ℝ) ∈ Set.Ico (-180 : ℝ) 180 ∧
        (M_to_E (wrapDeg (t.M : ℝ) * DEG2RAD) (t.ecc : ℝ) -
            (t.ecc : ℝ) * Real.sin (M_to_E (wrapDeg (t.M : ℝ) * DEG2RAD) (t.ecc : ℝ)) =
          wrapDeg (t.M : ℝ) * DEG2RAD) ∧
        TLE.nu t ∈ Set.Ico (-180 : ℝ) 180) ∧
    wrapDeg (287.0641 : ℝ) = -72.9359 := by
  constructor
  · intro t h0 h1
    have h0' : (0 : ℝ) ≤ (t.ecc : ℝ) := by exact_mod_cast h0
    have h1' : ((t.ecc : ℝ)) < 1 := by exact_mod_cast h1
    obtain ⟨hwl, hwr⟩ := wrapDeg_mem (t.M : ℝ)
    have hpi := Real.pi_pos
    have hpos : (0 : ℝ) < Real.pi / 180 := by positivity
    have hMl : -Real.pi ≤ wrapDeg (t.M : ℝ) * DEG2RAD := by
      have := mul_le_mul_of_nonneg_right hwl (le_of_lt hpos)
      unfold DEG2RAD
      calc -Real.pi = -180 * (Real.pi / 180) := by ring
        _ ≤ wrapDeg (t.M : ℝ) * (Real.pi / 180) := this
    have hMr : wrapDeg (t.M : ℝ) * DEG2RAD < Real.pi := by
      have := mul_lt_mul_of_pos_right hwr hpos
      unfold DEG2RAD
      calc wrapDeg (t.M : ℝ) * (Real.pi / 180) < 180 * (Real.pi / 180) := this
        _ = Real.pi := by ring
    have hM_Icc : wrapDeg (t.M : ℝ) * DEG2RAD ∈ Set.Icc (-Real.pi) Real.pi :=
      ⟨hMl, le_of_lt hMr⟩
    obtain ⟨hE_mem, hE_eq⟩ := M_to_E_spec (t.ecc : ℝ) hM_Icc
    refine ⟨⟨hwl, hwr⟩, hE_eq, ?_⟩
    have hE_lt : M_to_E (wrapDeg (t.M : ℝ) * DEG2RAD) (t.ecc : ℝ) < Real.pi := by
      rcases lt_or_eq_of_le hE_mem.2 with h | h
      · exact h
      · exfalso
        rw [h, Real.sin_pi, mul_zero, sub_zero] at hE_eq
        linarith
    have hnu := E_to_nu_mem h0' h1' ⟨hE_mem.1, hE_lt⟩
    obtain ⟨hnl, hnr⟩ := hnu
    have hpos2 : (0 : ℝ) < 180 / Real.pi := by positivity
    unfold TLE.nu M_to_nu
    constructor
    · have := mul_le_mul_of_nonneg_right hnl (le_of_lt hpos2)
      unfold RAD2DEG
      calc (-180 : ℝ) = -Real.pi * (180 / Real.pi) := by field_simp; ring
        _ ≤ _ := this
    · have := mul_lt_mul_of_pos_right hnr hpos2
      unfold RAD2DEG
      calc _ < Real.pi * (180 / Real.pi) := this
        _ = 180 := by field_simp
  · unfold wrapDeg pyMod360
    have hfl : ⌊(287.0641 + 180 : ℝ) / 360⌋ = 1 := by
      rw [Int.floor_eq_iff]
      norm_num
    rw [hfl]
    norm_num

/-- Witness for the amended C1 at the ISS record (`ecc = 0.0007999`). -/
theorem nu_wrap_and_range_witness :
    ((0 : ℚ) ≤ issTLE.ecc ∧ issTLE.ecc < 1) ∧
    (wrapDeg (issTLE.M : ℝ) ∈ Set.Ico (-180 : ℝ) 180 ∧
      (M_to_E (wrapDeg (issTLE.M : ℝ) * DEG2RAD) (issTLE.ecc : ℝ) -
          (issTLE.ecc : ℝ) *
            Real.sin (M_to_E (wrapDeg (issTLE.M : ℝ) * DEG2RAD) (issTLE.ecc : ℝ)) =
        wrapDeg (issTLE.M : ℝ) * DEG2RAD) ∧
      TLE.nu issTLE ∈ Set.Ico (-180 : ℝ) 180) :=
  ⟨⟨by decide!, by decide!⟩, nu_wrap_and_range.1 issTLE (by decide!) (by decide!)⟩

/-- C1 counterexample: at `M = 180` degrees (eccentricity 0) the wrapped
mean anomaly is exactly `-180`, outside the claimed `(-180, 180]`, and the
returned true anomaly is exactly `-180` degrees, also outside
`(-180, 180]`. -/
theorem nu_wrap_boundary_counterexample :
    wrapDeg ((boundaryTLE.M : ℚ) : ℝ) = -180 ∧
    TLE.nu boundaryTLE = -180 ∧
    wrapDeg ((boundaryTLE.M : ℚ) : ℝ) ∉ Set.Ioc (-180 : ℝ) 180 ∧
    TLE.nu boundaryTLE ∉ Set.Ioc (-180 : ℝ) 180 := by
  have hpi := Real.pi_pos
  have hM : ((boundaryTLE.M : ℚ) : ℝ) = 180 := by
    norm_num [boundaryTLE]
  have hecc : ((boundaryTLE.ecc : ℚ) : ℝ) = 0 := by
    norm_num [boundaryTLE]
  have hwrap : wrapDeg ((boundaryTLE.M : ℚ) : ℝ) = -180 := by
    rw [hM]
    unfold wrapDeg pyMod360
    have hfl : ⌊(180 + 180 : ℝ) / 360⌋ = 1 := by
      rw [Int.floor_eq_iff]
      norm_num
    rw [hfl]
    norm_num
  have hMr : wrapDeg ((boundaryTLE.M : ℚ) : ℝ) * DEG2RAD = -Real.pi := by
    rw [hwrap]
    unfold DEG2RAD
    ring
  have hE : M_to_E (-Real.pi) (0 : ℝ) = -Real.pi := by
    have hmem : (-Real.pi) ∈ Set.Icc (-Real.pi) Real.pi := ⟨le_refl _, by linarith⟩
    obtain ⟨-, heq⟩ := M_to_E_spec (0 : ℝ) hmem
    rw [zero_mul, sub_zero] at heq
    exact heq
  have hnu_rad : E_to_nu (-Real.pi) (0 : ℝ) = -Real.pi := by
    unfold E_to_nu
    have hcos : Real.cos (-Real.pi / 2) = 0 := by
      rw [show -Real.pi / 2 = -(Real.pi / 2) by ring, Real.cos_neg, Real.cos_pi_div_two]
    have hsin : Real.sin (-Real.pi / 2) = -1 := by
      rw [show -Real.pi / 2 = -(Real.pi / 2) by ring, Real.sin_neg, Real.sin_pi_div_two]
    have harg : Complex.arg ⟨Real.sqrt (1 - 0) * Real.cos (-Real.pi / 2),
        Real.sqrt (1 + 0) * Real.sin (-Real.pi / 2)⟩ = -(Real.pi / 2) := by
      rw [Complex.arg_eq_neg_pi_div_two_iff]
      constructor
      · show Real.sqrt (1 - 0) * Real.cos (-Real.pi / 2) = 0
        rw [hcos, mul_zero]
      · show Real.sqrt (1 + 0) * Real.sin (-Real.pi / 2) < 0
        rw [hsin]
        norm_num
    rw [harg]
    ring
  have hnu : TLE.nu boundaryTLE = -180 := by
    unfold TLE.nu M_to_nu
    rw [show ((boundaryTLE.M : ℚ) : ℝ) = (boundaryTLE.M : ℝ) from rfl] at hMr
    rw [hMr, show ((boundaryTLE.ecc : ℚ) : ℝ) = 0 from hecc, hE, hnu_rad]
    unfold RAD2DEG
    field_simp
    ring
  refine ⟨hwrap, hnu, ?_, ?_⟩
  · rw [hwrap]
    intro hmem
    exact lt_irrefl _ hmem.1
  · rw [hnu]
    intro hmem
    exact lt_irrefl _ hmem.1

end TLETools

